import Mathlib

/-!
Verification of the weighted-KNN reimbursement predictor
(`top-coder-solution/main.go`).

The Go program estimates a travel reimbursement from three inputs
(trip duration in days, miles traveled, total receipts amount) by a
k-nearest-neighbour search over a training set with inverse-distance
weighting.  Floating-point values are modelled as real numbers, the Go
`int` as `ℤ`, and the out-of-bounds access `neighbors[0]` on an empty
slice as `Option.none`.  `sort.Slice` guarantees the result is ordered
by the comparator but is documented as not stable; the embedding fixes
one ordering compatible with that contract (an insertion sort that
keeps equal-distance neighbours in input order, matching the
behaviour of Go's insertion sort used for short slices).
-/

open scoped Classical

noncomputable section

/-- `TestCase.Input` struct of `main.go` (lines 12-19): the three query
features of a historical record. -/
structure CaseInput where
  TripDurationDays : ℤ
  MilesTraveled : ℝ
  TotalReceiptsAmount : ℝ

/-- `TestCase` struct of `main.go`: a historical record, an input triple
together with its known reimbursement. -/
structure TestCase where
  Input : CaseInput
  ExpectedOutput : ℝ

/-- `Neighbor` struct of `main.go` (lines 21-24): a candidate's distance to
the query paired with its output. -/
structure Neighbor where
  Distance : ℝ
  Output : ℝ

/-- `TrainingData` of `main.go` (line 26): an ordered list of records. -/
abbrev TrainingData := List TestCase

/-- `calculateDistance` of `main.go` (lines 137-150): scaled Euclidean
distance between two input triples. -/
def calculateDistance (days1 : ℤ) (miles1 receipts1 : ℝ)
    (days2 : ℤ) (miles2 receipts2 : ℝ) : ℝ :=
  let dayScale : ℝ := 20.0
  let mileScale : ℝ := 2000.0
  let receiptScale : ℝ := 3000.0
  let daysDiff := ((days1 - days2 : ℤ) : ℝ) / dayScale
  let milesDiff := (miles1 - miles2) / mileScale
  let receiptsDiff := (receipts1 - receipts2) / receiptScale
  Real.sqrt (daysDiff * daysDiff + milesDiff * milesDiff + receiptsDiff * receiptsDiff)

/-- The exact-match condition of `main.go` lines 85-87: same integer day
count, miles and receipts within a strict absolute tolerance of 0.001. -/
def isExactMatch (tripDays : ℤ) (miles receipts : ℝ) (c : TestCase) : Prop :=
  c.Input.TripDurationDays = tripDays ∧
    |c.Input.MilesTraveled - miles| < 0.001 ∧
    |c.Input.TotalReceiptsAmount - receipts| < 0.001

/-- The exact-match scan of `main.go` lines 84-90: the first record, in
training order, satisfying `isExactMatch`, if any. -/
def findExactMatch (tripDays : ℤ) (miles receipts : ℝ) :
    TrainingData → Option TestCase
  | [] => none
  | c :: rest =>
    if isExactMatch tripDays miles receipts c then some c
    else findExactMatch tripDays miles receipts rest

/-- One `Neighbor` built from a record, `main.go` lines 96-104. -/
def mkNeighbor (tripDays : ℤ) (miles receipts : ℝ) (c : TestCase) : Neighbor :=
  { Distance := calculateDistance tripDays miles receipts
      c.Input.TripDurationDays c.Input.MilesTraveled c.Input.TotalReceiptsAmount
    Output := c.ExpectedOutput }

/-- The neighbour list of `main.go` lines 93-105, in training order. -/
def neighborsOf (tripDays : ℤ) (miles receipts : ℝ) (training : TrainingData) :
    List Neighbor :=
  training.map (mkNeighbor tripDays miles receipts)

/-- Insert a neighbour into a list, moving it before the first strictly
farther neighbour (Go's insertion step for the `Distance <` comparator). -/
def insertNeighbor (nb : Neighbor) : List Neighbor → List Neighbor
  | [] => [nb]
  | h :: t => if nb.Distance < h.Distance then nb :: h :: t
    else h :: insertNeighbor nb t

/-- The sort of `main.go` lines 108-110: reorders the neighbour list into
nondecreasing distance, one of the orderings `sort.Slice` may produce. -/
def sortNeighbors : List Neighbor → List Neighbor
  | [] => []
  | h :: t => insertNeighbor h (sortNeighbors t)

/-- The inverse-distance weight of `main.go` lines 122-123:
`1 / (distance + 1e-8)`. -/
def weight (nb : Neighbor) : ℝ := 1.0 / (nb.Distance + 1e-8)

/-- The neighbours actually aggregated: the first `k` of the sorted list,
with `k` clamped to the list length (`main.go` lines 113-115, 120). -/
def selectedNeighbors (tripDays : ℤ) (miles receipts : ℝ)
    (training : TrainingData) (k : ℕ) : List Neighbor :=
  let sorted := sortNeighbors (neighborsOf tripDays miles receipts training)
  sorted.take (if k > sorted.length then sorted.length else k)

/-- `totalWeight` accumulated by the loop of `main.go` lines 117-127. -/
def totalWeightOf (tripDays : ℤ) (miles receipts : ℝ)
    (training : TrainingData) (k : ℕ) : ℝ :=
  ((selectedNeighbors tripDays miles receipts training k).map weight).sum

/-- `weightedSum` accumulated by the loop of `main.go` lines 117-127. -/
def weightedSumOf (tripDays : ℤ) (miles receipts : ℝ)
    (training : TrainingData) (k : ℕ) : ℝ :=
  ((selectedNeighbors tripDays miles receipts training k).map
    (fun nb => weight nb * nb.Output)).sum

/-- `predictWeightedKNN` of `main.go` lines 82-135.  `none` models the
index-out-of-range panic of `neighbors[0]` on an empty slice. -/
def predictWeightedKNN (tripDays : ℤ) (miles receipts : ℝ)
    (training : TrainingData) (k : ℕ) : Option ℝ :=
  match findExactMatch tripDays miles receipts training with
  | some c => some c.ExpectedOutput
  | none =>
    if totalWeightOf tripDays miles receipts training k = 0 then
      match sortNeighbors (neighborsOf tripDays miles receipts training) with
      | [] => none
      | nb :: _ => some nb.Output
    else
      some (weightedSumOf tripDays miles receipts training k /
        totalWeightOf tripDays miles receipts training k)

end

/-! ### Claims about the distance function -/

/-- Claim C3: `calculateDistance` returns the Euclidean norm of the three
per-feature differences scaled by 20.0, 2000.0 and 3000.0. -/
theorem C3_distance_formula (d1 : ℤ) (m1 r1 : ℝ) (d2 : ℤ) (m2 r2 : ℝ) :
    calculateDistance d1 m1 r1 d2 m2 r2 =
      Real.sqrt ((((d1 : ℝ) - (d2 : ℝ)) / 20.0) ^ 2 +
        ((m1 - m2) / 2000.0) ^ 2 + ((r1 - r2) / 3000.0) ^ 2) := by
  unfold calculateDistance
  push_cast
  ring_nf

/-- Claim C8: `calculateDistance` is symmetric in its two input triples. -/
theorem C8_distance_symm (d1 : ℤ) (m1 r1 : ℝ) (d2 : ℤ) (m2 r2 : ℝ) :
    calculateDistance d1 m1 r1 d2 m2 r2 = calculateDistance d2 m2 r2 d1 m1 r1 := by
  unfold calculateDistance
  push_cast
  ring_nf

/-- Claim C9: `calculateDistance` is non-negative, and vanishes on the
diagonal. -/
theorem C9_distance_nonneg_refl (d1 : ℤ) (m1 r1 : ℝ) (d2 : ℤ) (m2 r2 : ℝ) :
    0 ≤ calculateDistance d1 m1 r1 d2 m2 r2 ∧
      calculateDistance d1 m1 r1 d1 m1 r1 = 0 := by
  constructor
  · exact Real.sqrt_nonneg _
  · unfold calculateDistance
    simp

/-! ### Structural lemmas about the embedding -/

theorem insertNeighbor_perm (nb : Neighbor) (l : List Neighbor) :
    List.Perm (insertNeighbor nb l) (nb :: l) := by
  induction l with
  | nil => simp [insertNeighbor]
  | cons h t ih =>
    by_cases hd : nb.Distance < h.Distance
    · simp [insertNeighbor, hd]
    · simpa [insertNeighbor, hd] using (ih.cons h).trans (List.Perm.swap nb h t)

theorem sortNeighbors_perm (l : List Neighbor) :
    List.Perm (sortNeighbors l) l := by
  induction l with
  | nil => simp [sortNeighbors]
  | cons h t ih =>
    exact (insertNeighbor_perm h (sortNeighbors t)).trans (ih.cons h)

theorem sortNeighbors_length (l : List Neighbor) :
    (sortNeighbors l).length = l.length :=
  (sortNeighbors_perm l).length_eq

theorem neighborsOf_length (tripDays : ℤ) (miles receipts : ℝ)
    (training : TrainingData) :
    (neighborsOf tripDays miles receipts training).length = training.length := by
  simp [neighborsOf]

theorem mem_selected_mem_neighbors (tripDays : ℤ) (miles receipts : ℝ)
    (training : TrainingData) (k : ℕ) (nb : Neighbor)
    (h : nb ∈ selectedNeighbors tripDays miles receipts training k) :
    nb ∈ neighborsOf tripDays miles receipts training :=
  (sortNeighbors_perm _).mem_iff.mp (List.take_subset _ _ h)

theorem dist_nonneg_of_mem_neighbors (tripDays : ℤ) (miles receipts : ℝ)
    (training : TrainingData) (nb : Neighbor)
    (h : nb ∈ neighborsOf tripDays miles receipts training) :
    0 ≤ nb.Distance := by
  rcases List.mem_map.mp h with ⟨c, _, rfl⟩
  exact Real.sqrt_nonneg _

theorem weight_pos (nb : Neighbor) (h : 0 ≤ nb.Distance) : 0 < weight nb := by
  have h8 : (0 : ℝ) < nb.Distance + 1e-8 := by
    have : (0 : ℝ) < 1e-8 := by norm_num
    linarith
  unfold weight
  exact div_pos (by norm_num) h8

theorem selectedNeighbors_length (tripDays : ℤ) (miles receipts : ℝ)
    (training : TrainingData) (k : ℕ) :
    (selectedNeighbors tripDays miles receipts training k).length =
      min k training.length := by
  simp only [selectedNeighbors, List.length_take, sortNeighbors_length,
    neighborsOf_length]
  by_cases h : k > training.length
  · simp [h, Nat.min_eq_right (le_of_lt h)]
  · simp [h]

theorem selectedNeighbors_ne_nil (tripDays : ℤ) (miles receipts : ℝ)
    (training : TrainingData) (k : ℕ)
    (hne : training ≠ []) (hk : 0 < k) :
    selectedNeighbors tripDays miles receipts training k ≠ [] := by
  have hlen : 0 < (selectedNeighbors tripDays miles receipts training k).length := by
    rw [selectedNeighbors_length]
    exact lt_min hk (List.length_pos.mpr hne)
  exact List.ne_nil_of_length_pos hlen

theorem totalWeightOf_pos (tripDays : ℤ) (miles receipts : ℝ)
    (training : TrainingData) (k : ℕ)
    (hne : training ≠ []) (hk : 0 < k) :
    0 < totalWeightOf tripDays miles receipts training k := by
  apply List.sum_pos
  · intro w hw
    rcases List.mem_map.mp hw with ⟨nb, hnb, rfl⟩
    exact weight_pos nb (dist_nonneg_of_mem_neighbors _ _ _ _ _
      (mem_selected_mem_neighbors _ _ _ _ _ _ hnb))
  · simpa using selectedNeighbors_ne_nil tripDays miles receipts training k hne hk

theorem findExactMatch_eq_none_iff (tripDays : ℤ) (miles receipts : ℝ)
    (training : TrainingData) :
    findExactMatch tripDays miles receipts training = none ↔
      ∀ c ∈ training, ¬ isExactMatch tripDays miles receipts c := by
  induction training with
  | nil => simp [findExactMatch]
  | cons h t ih =>
    by_cases hm : isExactMatch tripDays miles receipts h
    · simp [findExactMatch, hm]
    · simp [findExactMatch, hm, ih]

theorem findExactMatch_isSome_of_mem (tripDays : ℤ) (miles receipts : ℝ)
    (training : TrainingData) (c : TestCase)
    (hc : c ∈ training) (hm : isExactMatch tripDays miles receipts c) :
    ∃ F, findExactMatch tripDays miles receipts training = some F := by
  induction training with
  | nil => cases hc
  | cons h t ih =>
    by_cases hh : isExactMatch tripDays miles receipts h
    · exact ⟨h, by simp [findExactMatch, hh]⟩
    · rcases List.mem_cons.mp hc with rfl | hct
      · exact absurd hm hh
      · rcases ih hct with ⟨F, hF⟩
        exact ⟨F, by simp [findExactMatch, hh, hF]⟩

theorem findExactMatch_some_spec (tripDays : ℤ) (miles receipts : ℝ)
    (training : TrainingData) (F : TestCase)
    (h : findExactMatch tripDays miles receipts training = some F) :
    F ∈ training ∧ isExactMatch tripDays miles receipts F := by
  induction training with
  | nil => simp [findExactMatch] at h
  | cons c t ih =>
    by_cases hc : isExactMatch tripDays miles receipts c
    · simp [findExactMatch, hc] at h
      subst h
      exact ⟨List.mem_cons_self _ _, hc⟩
    · simp [findExactMatch, hc] at h
      rcases ih h with ⟨hmem, hm⟩
      exact ⟨List.mem_cons_of_mem _ hmem, hm⟩

theorem predict_of_find_some (tripDays : ℤ) (miles receipts : ℝ)
    (training : TrainingData) (k : ℕ) (F : TestCase)
    (h : findExactMatch tripDays miles receipts training = some F) :
    predictWeightedKNN tripDays miles receipts training k = some F.ExpectedOutput := by
  simp [predictWeightedKNN, h]

theorem predict_of_no_match (tripDays : ℤ) (miles receipts : ℝ)
    (training : TrainingData) (k : ℕ)
    (hnm : findExactMatch tripDays miles receipts training = none)
    (htw : totalWeightOf tripDays miles receipts training k ≠ 0) :
    predictWeightedKNN tripDays miles receipts training k =
      some (weightedSumOf tripDays miles receipts training k /
        totalWeightOf tripDays miles receipts training k) := by
  simp [predictWeightedKNN, hnm, htw]

theorem sum_weight_mul_le (b : ℝ) (l : List Neighbor)
    (hw : ∀ nb ∈ l, 0 ≤ weight nb) (hb : ∀ nb ∈ l, b ≤ nb.Output) :
    b * (l.map weight).sum ≤ (l.map fun nb => weight nb * nb.Output).sum := by
  induction l with
  | nil => simp
  | cons h t ih =>
    have h1 : b * weight h ≤ weight h * h.Output := by
      rw [mul_comm]
      exact mul_le_mul_of_nonneg_left (hb h (List.mem_cons_self h t))
        (hw h (List.mem_cons_self h t))
    have h2 : b * (t.map weight).sum ≤
        (t.map fun nb => weight nb * nb.Output).sum :=
      ih (fun nb hnb => hw nb (List.mem_cons_of_mem h hnb))
        (fun nb hnb => hb nb (List.mem_cons_of_mem h hnb))
    simp only [List.map_cons, List.sum_cons, mul_add]
    linarith

theorem sum_weight_mul_ge (b : ℝ) (l : List Neighbor)
    (hw : ∀ nb ∈ l, 0 ≤ weight nb) (hb : ∀ nb ∈ l, nb.Output ≤ b) :
    (l.map fun nb => weight nb * nb.Output).sum ≤ b * (l.map weight).sum := by
  induction l with
  | nil => simp
  | cons h t ih =>
    have h1 : weight h * h.Output ≤ b * weight h := by
      rw [mul_comm b]
      exact mul_le_mul_of_nonneg_left (hb h (List.mem_cons_self h t))
        (hw h (List.mem_cons_self h t))
    have h2 : (t.map fun nb => weight nb * nb.Output).sum ≤
        b * (t.map weight).sum :=
      ih (fun nb hnb => hw nb (List.mem_cons_of_mem h hnb))
        (fun nb hnb => hb nb (List.mem_cons_of_mem h hnb))
    simp only [List.map_cons, List.sum_cons, mul_add]
    linarith

theorem weight_nonneg_of_mem_selected (tripDays : ℤ) (miles receipts : ℝ)
    (training : TrainingData) (k : ℕ) (nb : Neighbor)
    (h : nb ∈ selectedNeighbors tripDays miles receipts training k) :
    0 ≤ weight nb :=
  le_of_lt (weight_pos nb (dist_nonneg_of_mem_neighbors _ _ _ _ _
    (mem_selected_mem_neighbors _ _ _ _ _ _ h)))

/-! ### Claims about the predictor -/

/-- Claim C10: the fallback `neighbors[0]` (an out-of-bounds access, modelled
as `none`) is reached exactly on the empty training set: prediction on the
empty set is `none`, and on every non-empty set it is `some` value. -/
theorem C10_empty_vs_nonempty (tripDays : ℤ) (miles receipts : ℝ)
    (training : TrainingData) (hne : training ≠ []) :
    predictWeightedKNN tripDays miles receipts [] 5 = none ∧
      ∃ y, predictWeightedKNN tripDays miles receipts training 5 = some y := by
  constructor
  · simp [predictWeightedKNN, findExactMatch, totalWeightOf, selectedNeighbors,
      neighborsOf, sortNeighbors]
  · cases hf : findExactMatch tripDays miles receipts training with
    | some F => exact ⟨F.ExpectedOutput, predict_of_find_some _ _ _ _ _ _ hf⟩
    | none =>
      have htw : totalWeightOf tripDays miles receipts training 5 ≠ 0 :=
        ne_of_gt (totalWeightOf_pos _ _ _ _ _ hne (by norm_num))
      exact ⟨_, predict_of_no_match _ _ _ _ _ hf htw⟩

/-- Closed witness for claim C10 at a concrete one-record training set. -/
theorem C10_empty_vs_nonempty_witness :
    predictWeightedKNN 1 0 0 [] 5 = none ∧
      ∃ y, predictWeightedKNN 1 0 0 [⟨⟨1, 0, 0⟩, 100⟩] 5 = some y :=
  C10_empty_vs_nonempty 1 0 0 [⟨⟨1, 0, 0⟩, 100⟩] (List.cons_ne_nil _ _)

/-- Claim C7: with no exact match, if the accumulated total weight is zero the
predictor returns the first sorted neighbour's output, and otherwise the
weighted sum divided by the total weight, each selected neighbour weighted by
`1 / (distance + 1e-8)`. -/
theorem C7_aggregation_fallback (tripDays : ℤ) (miles receipts : ℝ)
    (training : TrainingData) (k : ℕ)
    (hnm : findExactMatch tripDays miles receipts training = none)
    (nb : Neighbor) (rest : List Neighbor)
    (hs : sortNeighbors (neighborsOf tripDays miles receipts training) = nb :: rest) :
    (totalWeightOf tripDays miles receipts training k = 0 →
      predictWeightedKNN tripDays miles receipts training k = some nb.Output) ∧
    (totalWeightOf tripDays miles receipts training k ≠ 0 →
      predictWeightedKNN tripDays miles receipts training k =
        some (((selectedNeighbors tripDays miles receipts training k).map
            (fun x => 1.0 / (x.Distance + 1e-8) * x.Output)).sum /
          ((selectedNeighbors tripDays miles receipts training k).map
            (fun x => 1.0 / (x.Distance + 1e-8))).sum)) := by
  constructor
  · intro h0
    simp [predictWeightedKNN, hnm, h0, hs]
  · intro h0
    rw [predict_of_no_match tripDays miles receipts training k hnm h0]
    rfl

/-- Closed witness for claim C7 at a concrete one-record training set and a
query with no exact match. -/
theorem C7_aggregation_fallback_witness :
    (totalWeightOf 2 0 0 [⟨⟨1, 0, 0⟩, 100⟩] 5 = 0 →
      predictWeightedKNN 2 0 0 [⟨⟨1, 0, 0⟩, 100⟩] 5 =
        some (mkNeighbor 2 0 0 ⟨⟨1, 0, 0⟩, 100⟩).Output) ∧
    (totalWeightOf 2 0 0 [⟨⟨1, 0, 0⟩, 100⟩] 5 ≠ 0 →
      predictWeightedKNN 2 0 0 [⟨⟨1, 0, 0⟩, 100⟩] 5 =
        some (((selectedNeighbors 2 0 0 [⟨⟨1, 0, 0⟩, 100⟩] 5).map
            (fun x => 1.0 / (x.Distance + 1e-8) * x.Output)).sum /
          ((selectedNeighbors 2 0 0 [⟨⟨1, 0, 0⟩, 100⟩] 5).map
            (fun x => 1.0 / (x.Distance + 1e-8))).sum)) :=
  C7_aggregation_fallback 2 0 0 [⟨⟨1, 0, 0⟩, 100⟩] 5
    (by simp [findExactMatch, isExactMatch])
    (mkNeighbor 2 0 0 ⟨⟨1, 0, 0⟩, 100⟩) []
    (by simp [sortNeighbors, neighborsOf, insertNeighbor])

theorem selectedNeighbors_eq_sorted_of_lt (tripDays : ℤ) (miles receipts : ℝ)
    (training : TrainingData) (hlt : training.length < 5) :
    selectedNeighbors tripDays miles receipts training 5 =
      sortNeighbors (neighborsOf tripDays miles receipts training) := by
  have hlen : (sortNeighbors (neighborsOf tripDays miles receipts training)).length =
      training.length := by
    rw [sortNeighbors_length, neighborsOf_length]
  simp only [selectedNeighbors, hlen]
  rw [if_pos hlt]
  apply List.take_of_length_le
  rw [hlen]

/-- Claim C6: on a training set with fewer than five records and a query with
no exact match, every record's neighbour is selected (k is clamped to the set
size) and prediction still yields a value: no out-of-bounds access. -/
theorem C6_k_saturation (tripDays : ℤ) (miles receipts : ℝ)
    (training : TrainingData) (hlt : training.length < 5) (hne : training ≠ [])
    (hnm : findExactMatch tripDays miles receipts training = none) :
    List.Perm (selectedNeighbors tripDays miles receipts training 5)
        (neighborsOf tripDays miles receipts training) ∧
      ∃ y, predictWeightedKNN tripDays miles receipts training 5 = some y := by
  constructor
  · rw [selectedNeighbors_eq_sorted_of_lt tripDays miles receipts training hlt]
    exact sortNeighbors_perm _
  · have htw : totalWeightOf tripDays miles receipts training 5 ≠ 0 :=
      ne_of_gt (totalWeightOf_pos _ _ _ _ _ hne (by norm_num))
    exact ⟨_, predict_of_no_match _ _ _ _ _ hnm htw⟩

/-- Closed witness for claim C6: a two-record training set and a query with no
exact match. -/
theorem C6_k_saturation_witness :
    List.Perm (selectedNeighbors 4 0 0 [⟨⟨1, 0, 0⟩, 100⟩, ⟨⟨2, 0, 0⟩, 200⟩] 5)
        (neighborsOf 4 0 0 [⟨⟨1, 0, 0⟩, 100⟩, ⟨⟨2, 0, 0⟩, 200⟩]) ∧
      ∃ y, predictWeightedKNN 4 0 0 [⟨⟨1, 0, 0⟩, 100⟩, ⟨⟨2, 0, 0⟩, 200⟩] 5 = some y :=
  C6_k_saturation 4 0 0 [⟨⟨1, 0, 0⟩, 100⟩, ⟨⟨2, 0, 0⟩, 200⟩]
    (by simp) (List.cons_ne_nil _ _)
    (by simp [findExactMatch, isExactMatch])

/-- Claim C4: with no exact match on a non-empty training set, the prediction
is a convex combination of the selected neighbours' outputs: it lies between
every lower bound and every upper bound of those outputs. -/
theorem C4_convex_bounds (tripDays : ℤ) (miles receipts : ℝ)
    (training : TrainingData) (hne : training ≠ [])
    (hnm : findExactMatch tripDays miles receipts training = none) :
    ∃ y, predictWeightedKNN tripDays miles receipts training 5 = some y ∧
      (∀ b, (∀ nb ∈ selectedNeighbors tripDays miles receipts training 5,
        b ≤ nb.Output) → b ≤ y) ∧
      (∀ b, (∀ nb ∈ selectedNeighbors tripDays miles receipts training 5,
        nb.Output ≤ b) → y ≤ b) := by
  have htw : 0 < totalWeightOf tripDays miles receipts training 5 :=
    totalWeightOf_pos _ _ _ _ _ hne (by norm_num)
  refine ⟨weightedSumOf tripDays miles receipts training 5 /
      totalWeightOf tripDays miles receipts training 5,
    predict_of_no_match _ _ _ _ _ hnm (ne_of_gt htw), ?_, ?_⟩
  · intro b hb
    rw [le_div_iff₀ htw]
    exact sum_weight_mul_le b _
      (fun nb hnb => weight_nonneg_of_mem_selected _ _ _ _ _ _ hnb) hb
  · intro b hb
    rw [div_le_iff₀ htw]
    exact sum_weight_mul_ge b _
      (fun nb hnb => weight_nonneg_of_mem_selected _ _ _ _ _ _ hnb) hb

/-- Closed witness for claim C4 at a concrete one-record training set and a
query with no exact match. -/
theorem C4_convex_bounds_witness :
    ∃ y, predictWeightedKNN 2 0 0 [⟨⟨1, 0, 0⟩, 100⟩] 5 = some y ∧
      (∀ b, (∀ nb ∈ selectedNeighbors 2 0 0 [⟨⟨1, 0, 0⟩, 100⟩] 5,
        b ≤ nb.Output) → b ≤ y) ∧
      (∀ b, (∀ nb ∈ selectedNeighbors 2 0 0 [⟨⟨1, 0, 0⟩, 100⟩] 5,
        nb.Output ≤ b) → y ≤ b) :=
  C4_convex_bounds 2 0 0 [⟨⟨1, 0, 0⟩, 100⟩] (List.cons_ne_nil _ _)
    (by simp [findExactMatch, isExactMatch])

theorem isExactMatch_self (R : TestCase) :
    isExactMatch R.Input.TripDurationDays R.Input.MilesTraveled
      R.Input.TotalReceiptsAmount R := by
  refine ⟨rfl, ?_, ?_⟩ <;>
    · rw [sub_self, abs_zero]
      norm_num

/-- Claim C1 (amended): querying with a record's own input triple returns the
expected output of the first record whose triple matches the query within the
exact-match tolerance; when the queried record is that first match this is its
own expected output. -/
theorem C1_first_match (training : TrainingData) (R : TestCase)
    (hR : R ∈ training) :
    ∃ F, findExactMatch R.Input.TripDurationDays R.Input.MilesTraveled
        R.Input.TotalReceiptsAmount training = some F ∧
      F ∈ training ∧
      isExactMatch R.Input.TripDurationDays R.Input.MilesTraveled
        R.Input.TotalReceiptsAmount F ∧
      predictWeightedKNN R.Input.TripDurationDays R.Input.MilesTraveled
        R.Input.TotalReceiptsAmount training 5 = some F.ExpectedOutput := by
  obtain ⟨F, hF⟩ :=
    findExactMatch_isSome_of_mem _ _ _ training R hR (isExactMatch_self R)
  obtain ⟨hmem, hmatch⟩ := findExactMatch_some_spec _ _ _ training F hF
  exact ⟨F, hF, hmem, hmatch, predict_of_find_some _ _ _ _ _ _ hF⟩

/-- Closed witness for the amended claim C1 at a one-record training set. -/
theorem C1_first_match_witness :
    ∃ F, findExactMatch (3 : ℤ) (100 : ℝ) (50 : ℝ) [⟨⟨3, 100, 50⟩, 120⟩] = some F ∧
      F ∈ ([⟨⟨3, 100, 50⟩, 120⟩] : TrainingData) ∧
      isExactMatch (3 : ℤ) (100 : ℝ) (50 : ℝ) F ∧
      predictWeightedKNN (3 : ℤ) (100 : ℝ) (50 : ℝ) [⟨⟨3, 100, 50⟩, 120⟩] 5 =
        some F.ExpectedOutput :=
  C1_first_match [⟨⟨3, 100, 50⟩, 120⟩] ⟨⟨3, 100, 50⟩, 120⟩
    (List.mem_singleton.mpr rfl)

/-- Refutation of claim C1 as stated: with two records sharing one input
triple, querying with the second record's triple returns the first record's
output, not the second's. -/
theorem C1_counterexample :
    (⟨⟨3, 100, 50⟩, 999⟩ : TestCase) ∈
        ([⟨⟨3, 100, 50⟩, 120⟩, ⟨⟨3, 100, 50⟩, 999⟩] : TrainingData) ∧
      predictWeightedKNN 3 100 50
        [⟨⟨3, 100, 50⟩, 120⟩, ⟨⟨3, 100, 50⟩, 999⟩] 5 ≠ some (999 : ℝ) := by
  constructor
  · simp
  · have hfind : findExactMatch 3 100 50
        [⟨⟨3, 100, 50⟩, 120⟩, ⟨⟨3, 100, 50⟩, 999⟩] = some ⟨⟨3, 100, 50⟩, 120⟩ := by
      rw [findExactMatch, if_pos (isExactMatch_self ⟨⟨3, 100, 50⟩, 120⟩)]
    rw [predict_of_find_some _ _ _ _ _ _ hfind]
    intro h
    simp only [Option.some.injEq] at h
    norm_num at h

/-- Claim C2 (amended): a query whose trip days equal a record's exactly and
whose miles and receipts differ from the record's by strictly less than 0.001
in absolute value is answered by the first such matching record's expected
output, bypassing the weighted aggregation. -/
theorem C2_strict_tolerance (tripDays : ℤ) (miles receipts : ℝ)
    (training : TrainingData) (R : TestCase) (hR : R ∈ training)
    (hd : R.Input.TripDurationDays = tripDays)
    (hm : |R.Input.MilesTraveled - miles| < 0.001)
    (hrc : |R.Input.TotalReceiptsAmount - receipts| < 0.001) :
    ∃ F, findExactMatch tripDays miles receipts training = some F ∧
      F ∈ training ∧ isExactMatch tripDays miles receipts F ∧
      predictWeightedKNN tripDays miles receipts training 5 =
        some F.ExpectedOutput := by
  obtain ⟨F, hF⟩ :=
    findExactMatch_isSome_of_mem _ _ _ training R hR ⟨hd, hm, hrc⟩
  obtain ⟨hmem, hmatch⟩ := findExactMatch_some_spec _ _ _ training F hF
  exact ⟨F, hF, hmem, hmatch, predict_of_find_some _ _ _ _ _ _ hF⟩

/-- Closed witness for the amended claim C2: a query 0.0005 miles away from a
record is answered by that record's output. -/
theorem C2_strict_tolerance_witness :
    ∃ F, findExactMatch (3 : ℤ) (100.0005 : ℝ) (50 : ℝ) [⟨⟨3, 100, 50⟩, 120⟩] =
        some F ∧
      F ∈ ([⟨⟨3, 100, 50⟩, 120⟩] : TrainingData) ∧
      isExactMatch (3 : ℤ) (100.0005 : ℝ) (50 : ℝ) F ∧
      predictWeightedKNN (3 : ℤ) (100.0005 : ℝ) (50 : ℝ) [⟨⟨3, 100, 50⟩, 120⟩] 5 =
        some F.ExpectedOutput :=
  C2_strict_tolerance 3 100.0005 50 [⟨⟨3, 100, 50⟩, 120⟩] ⟨⟨3, 100, 50⟩, 120⟩
    (List.mem_singleton.mpr rfl) rfl
    (by norm_num [abs_lt]) (by norm_num [abs_lt])

/-- Refutation of claim C2 as stated: a query differing from a record's miles
by exactly 0.001 (so "at most 0.001" holds) is not answered by that record's
output: the strict `< 0.001` comparison rejects it and the weighted
aggregation, which also sees a farther second record, returns a strictly
larger value. -/
theorem C2_counterexample :
    |(100 : ℝ) - 100.001| ≤ 0.001 ∧ |(50 : ℝ) - 50| ≤ 0.001 ∧
      predictWeightedKNN 3 100.001 50
        [⟨⟨3, 100, 50⟩, 100⟩, ⟨⟨10, 500, 1000⟩, 200⟩] 5 ≠ some (100 : ℝ) := by
  refine ⟨by norm_num [abs_le], by norm_num, ?_⟩
  have hnm : findExactMatch 3 100.001 50
      [⟨⟨3, 100, 50⟩, 100⟩, ⟨⟨10, 500, 1000⟩, 200⟩] = none := by
    rw [findExactMatch_eq_none_iff]
    intro c hc
    rcases List.mem_cons.mp hc with rfl | hc2
    · rintro ⟨-, hmiles, -⟩
      rw [abs_sub_lt_iff] at hmiles
      norm_num at hmiles
    · rcases List.mem_singleton.mp hc2 with rfl
      rintro ⟨hdays, -, -⟩
      norm_num at hdays
  have hwA : 0 < weight (mkNeighbor 3 100.001 50 ⟨⟨3, 100, 50⟩, 100⟩) :=
    weight_pos _ (dist_nonneg_of_mem_neighbors 3 100.001 50
      [⟨⟨3, 100, 50⟩, 100⟩, ⟨⟨10, 500, 1000⟩, 200⟩] _ (by simp [neighborsOf]))
  have hwB : 0 < weight (mkNeighbor 3 100.001 50 ⟨⟨10, 500, 1000⟩, 200⟩) :=
    weight_pos _ (dist_nonneg_of_mem_neighbors 3 100.001 50
      [⟨⟨3, 100, 50⟩, 100⟩, ⟨⟨10, 500, 1000⟩, 200⟩] _ (by simp [neighborsOf]))
  have hperm : List.Perm
      (selectedNeighbors 3 100.001 50
        [⟨⟨3, 100, 50⟩, 100⟩, ⟨⟨10, 500, 1000⟩, 200⟩] 5)
      [mkNeighbor 3 100.001 50 ⟨⟨3, 100, 50⟩, 100⟩,
        mkNeighbor 3 100.001 50 ⟨⟨10, 500, 1000⟩, 200⟩] := by
    rw [selectedNeighbors_eq_sorted_of_lt _ _ _ _ (by simp)]
    exact sortNeighbors_perm _
  have htw_eq : totalWeightOf 3 100.001 50
      [⟨⟨3, 100, 50⟩, 100⟩, ⟨⟨10, 500, 1000⟩, 200⟩] 5 =
      weight (mkNeighbor 3 100.001 50 ⟨⟨3, 100, 50⟩, 100⟩) +
        weight (mkNeighbor 3 100.001 50 ⟨⟨10, 500, 1000⟩, 200⟩) := by
    unfold totalWeightOf
    rw [(hperm.map weight).sum_eq]
    simp
  have hws_eq : weightedSumOf 3 100.001 50
      [⟨⟨3, 100, 50⟩, 100⟩, ⟨⟨10, 500, 1000⟩, 200⟩] 5 =
      weight (mkNeighbor 3 100.001 50 ⟨⟨3, 100, 50⟩, 100⟩) * 100 +
        weight (mkNeighbor 3 100.001 50 ⟨⟨10, 500, 1000⟩, 200⟩) * 200 := by
    unfold weightedSumOf
    rw [(hperm.map fun nb => weight nb * nb.Output).sum_eq]
    simp [mkNeighbor]
  have htw_pos : 0 < totalWeightOf 3 100.001 50
      [⟨⟨3, 100, 50⟩, 100⟩, ⟨⟨10, 500, 1000⟩, 200⟩] 5 := by
    rw [htw_eq]
    linarith
  rw [predict_of_no_match 3 100.001 50 _ 5 hnm (ne_of_gt htw_pos)]
  simp only [ne_eq, Option.some.injEq]
  intro h
  rw [hws_eq, htw_eq, div_eq_iff (ne_of_gt (by rw [htw_eq] at htw_pos; exact htw_pos))] at h
  linarith
